import Mathlib

/-! Verification of the `hsh` password-hashing library's hash-entity model
(`src/models/hash.rs`).  Rust byte vectors (`Vec<u8>`, `&[u8]`) are modelled as
`List Nat`; Rust string slices (`&str`, `String`) are modelled by their UTF-8
byte sequences, so `str::as_bytes`/`String::into_bytes` are the identity and
`str::from_utf8` is a validity guard.  The external cryptographic collaborators
(the `argon2rs`, `bcrypt` and `scrypt` crates) are parameters of the model. -/

namespace Hsh

/-- Byte sequences: the model of Rust `Vec<u8>`, `&[u8]`, and the UTF-8 bytes
of `&str` / `String` values. -/
abbrev Bytes := List Nat

/-- Bytes of an ASCII string literal.  Used to transcribe the ASCII string
literals of the Rust source (identifiers, error messages, delimiters). -/
def ascii (s : String) : Bytes := s.data.map Char.toNat

/-- Whether a byte is a UTF-8 continuation byte (`0x80..0xBF`). -/
def contByte (b : Nat) : Bool := decide (128 ≤ b ∧ b < 192)

/-- UTF-8 validity of a byte sequence, following the checks performed by Rust
`std::str::from_utf8`: well-formed lead/continuation structure, no overlong
encodings, no surrogate code points (lead `0xED` restricts the second byte),
and no code points above `U+10FFFF` (lead bytes `0xF5..0xFF` are invalid). -/
def validUtf8 : Bytes → Bool
  | [] => true
  | b :: rest =>
    if b < 128 then validUtf8 rest
    else if b < 194 then false
    else if b < 224 then
      match rest with
      | b2 :: r => contByte b2 && validUtf8 r
      | [] => false
    else if b = 224 then
      match rest with
      | b2 :: b3 :: r => decide (160 ≤ b2 ∧ b2 < 192) && contByte b3 && validUtf8 r
      | _ => false
    else if b < 237 then
      match rest with
      | b2 :: b3 :: r => contByte b2 && contByte b3 && validUtf8 r
      | _ => false
    else if b = 237 then
      match rest with
      | b2 :: b3 :: r => decide (128 ≤ b2 ∧ b2 < 160) && contByte b3 && validUtf8 r
      | _ => false
    else if b < 240 then
      match rest with
      | b2 :: b3 :: r => contByte b2 && contByte b3 && validUtf8 r
      | _ => false
    else if b = 240 then
      match rest with
      | b2 :: b3 :: b4 :: r =>
        decide (144 ≤ b2 ∧ b2 < 192) && contByte b3 && contByte b4 && validUtf8 r
      | _ => false
    else if b < 244 then
      match rest with
      | b2 :: b3 :: b4 :: r => contByte b2 && contByte b3 && contByte b4 && validUtf8 r
      | _ => false
    else if b = 244 then
      match rest with
      | b2 :: b3 :: b4 :: r =>
        decide (128 ≤ b2 ∧ b2 < 144) && contByte b3 && contByte b4 && validUtf8 r
      | _ => false
    else false

/-- Number of characters of a UTF-8 byte sequence: the count of bytes that are
not continuation bytes (each character contributes exactly one lead byte). -/
def charCount (bs : Bytes) : Nat := bs.countP (fun b => ! contByte b)

/-- Whether `pat` occurs at the start of `s`. -/
def leadsWith : Bytes → Bytes → Bool
  | [], _ => true
  | _ :: _, [] => false
  | a :: as, b :: bs => a == b && leadsWith as bs

/-- Whether `pat` occurs contiguously anywhere inside `s` (used to state that
an error message does, or does not, name an identifier). -/
def mentions (pat : Bytes) : Bytes → Bool
  | [] => pat.isEmpty
  | b :: bs => leadsWith pat (b :: bs) || mentions pat bs

/-- `HashAlgorithm` from `src/models/hash_algorithm.rs`: the closed set of
supported password-hashing algorithms. -/
inductive HashAlgorithm
  | Argon2i
  | Bcrypt
  | Scrypt
deriving DecidableEq, Repr

/-- The `Hash` entity from `src/models/hash.rs`: hash bytes, salt bytes and
the algorithm tag. -/
structure Hash where
  hash : Bytes
  salt : Bytes
  algorithm : HashAlgorithm
deriving DecidableEq, Repr

/-- The external cryptographic collaborators used by `src/models/hash.rs` and
`src/algorithms/`; they are opaque primitives supplied by the `argon2rs`,
`bcrypt` and `scrypt` crates and are out of the library's scope (spec §1, §6),
so the model is parameterized by them:

* `argon2i p s` — `argon2rs::argon2i_simple(password, salt)`, which is total
  and returns a `[u8; 32]`;
* `bcryptHash p` — `bcrypt::hash(password, DEFAULT_COST)` (`DEFAULT_COST` is a
  crate constant), returning an encoded string or an error;
* `bcryptVerify p h` — `bcrypt::verify(password, encoded)`;
* `scrypt p s` — `scrypt::scrypt(password, salt, params, &mut [0u8; 64])`
  with the fixed parameters `Params::new(14, 8, 1, 64)` from the source.
  `Params::new(14, 8, 1, 64)` is a constant call that succeeds, and
  `scrypt::scrypt` into a 64-byte buffer only fails on an invalid output
  length, so the filled buffer is modelled as a total function. -/
structure ExternalPrimitives where
  argon2i : Bytes → Bytes → Bytes
  bcryptHash : Bytes → Except Bytes Bytes
  bcryptVerify : Bytes → Bytes → Except Bytes Bool
  scrypt : Bytes → Bytes → Bytes

/-- Rust `str::split('$')` on the UTF-8 bytes of a string: split on byte 36
(`'$'` is ASCII, so byte 36 occurs exactly at the `'$'` characters).  Adjacent
and leading/trailing delimiters yield empty parts, as in Rust. -/
def splitDollar : Bytes → List Bytes
  | [] => [[]]
  | b :: rest =>
    if b = 36 then [] :: splitDollar rest
    else
      match splitDollar rest with
      | p :: ps => (b :: p) :: ps
      | [] => [[b]]

/-- Joining parts with the `'$'` byte: the inverse of `splitDollar`. -/
def joinDollar : List Bytes → Bytes
  | [] => []
  | [p] => p
  | p :: q :: ps => p ++ 36 :: joinDollar (q :: ps)

/-- Byte of the standard base64 alphabet at index `i < 64`
(`A-Z`, `a-z`, `0-9`, `+`, `/`). -/
def b64Char (i : Nat) : Nat :=
  if i < 26 then 65 + i
  else if i < 52 then 71 + i
  else if i < 62 then i - 4
  else if i = 62 then 43
  else 47

/-- Index of a byte in the standard base64 alphabet, `none` for non-alphabet
bytes (including the padding byte `'='`). -/
def b64Index (b : Nat) : Option Nat :=
  if 65 ≤ b ∧ b ≤ 90 then some (b - 65)
  else if 97 ≤ b ∧ b ≤ 122 then some (b - 71)
  else if 48 ≤ b ∧ b ≤ 57 then some (b + 4)
  else if b = 43 then some 62
  else if b = 47 then some 63
  else none

/-- Standard base64 encoding with padding, as produced by the `base64` crate's
`general_purpose::STANDARD` engine (used by the library for hash fields and
generated salts). -/
def b64Encode : Bytes → Bytes
  | [] => []
  | [a] => [b64Char (a / 4), b64Char (a % 4 * 16), 61, 61]
  | [a, b] => [b64Char (a / 4), b64Char (a % 4 * 16 + b / 16), b64Char (b % 16 * 4), 61]
  | a :: b :: c :: rest =>
    b64Char (a / 4) :: b64Char (a % 4 * 16 + b / 16) ::
      b64Char (b % 16 * 4 + c / 64) :: b64Char (c % 64) :: b64Encode rest

/-- Standard base64 decoding, as performed by the `general_purpose::STANDARD`
engine: the length must be a multiple of four, padding must be canonical and
final, and the unused trailing bits of the last quantum must be zero. -/
def b64Decode : Bytes → Option Bytes
  | [] => some []
  | c1 :: c2 :: c3 :: c4 :: rest =>
    match b64Index c1, b64Index c2 with
    | some i1, some i2 =>
      if c3 = 61 then
        if c4 = 61 ∧ rest = [] then
          if i2 % 16 = 0 then some [i1 * 4 + i2 / 16] else none
        else none
      else
        match b64Index c3 with
        | some i3 =>
          if c4 = 61 then
            if rest = [] then
              if i3 % 4 = 0 then some [i1 * 4 + i2 / 16, i2 % 16 * 16 + i3 / 4]
              else none
            else none
          else
            match b64Index c4 with
            | some i4 =>
              (b64Decode rest).map
                (fun bs => (i1 * 4 + i2 / 16) :: (i2 % 16 * 16 + i3 / 4) :: (i3 % 4 * 64 + i4) :: bs)
            | none => none
        | none => none
    | _, _ => none
  | _ => none

/-- `impl FromStr for HashAlgorithm` (`src/models/hash.rs`, lines 452-464):
exact match against the three lowercase identifiers; anything else fails with
the fixed message `"Invalid hash algorithm"`. -/
def HashAlgorithm.from_str (s : Bytes) : Except Bytes HashAlgorithm :=
  if s = ascii "argon2i" then .ok .Argon2i
  else if s = ascii "bcrypt" then .ok .Bcrypt
  else if s = ascii "scrypt" then .ok .Scrypt
  else .error (ascii "Invalid hash algorithm")

/-- `Hash::parse_algorithm` (`src/models/hash.rs`, lines 313-328): split the
string on `'$'`; fewer than two parts is `"Invalid hash string"`; otherwise
match the second part against the three identifiers, anything else failing
with `"Unsupported hash algorithm: {parts[1]}"`. -/
def Hash.parse_algorithm (hash_str : Bytes) : Except Bytes HashAlgorithm :=
  match splitDollar hash_str with
  | _ :: a :: _ =>
    if a = ascii "argon2i" then .ok .Argon2i
    else if a = ascii "bcrypt" then .ok .Bcrypt
    else if a = ascii "scrypt" then .ok .Scrypt
    else .error (ascii "Unsupported hash algorithm: " ++ a)
  | _ => .error (ascii "Invalid hash string")

/-- `Hash::from_string` (`src/models/hash.rs`, lines 175-205): split on `'$'`;
exactly six parts are required (`"Invalid hash string"` otherwise); the
algorithm is parsed by `parse_algorithm`; the stored salt is
`format!("${}${}${}${}", parts[1], parts[2], parts[3], parts[4])` as bytes;
the hash is the base64 decoding of `parts[5]`
(`"Failed to decode base64: {parts[5]}"` on failure).  The `getD` defaults are
unreachable because the length of `parts` is checked to be six first. -/
def Hash.from_string (hash_str : Bytes) : Except Bytes Hash :=
  let parts := splitDollar hash_str
  if parts.length = 6 then
    match Hash.parse_algorithm hash_str with
    | .error e => .error e
    | .ok algorithm =>
      let salt := [36] ++ parts.getD 1 [] ++ [36] ++ parts.getD 2 [] ++
        [36] ++ parts.getD 3 [] ++ [36] ++ parts.getD 4 []
      match b64Decode (parts.getD 5 []) with
      | none => .error (ascii "Failed to decode base64: " ++ parts.getD 5 [])
      | some hash_bytes => .ok { hash := hash_bytes, salt := salt, algorithm := algorithm }
  else .error (ascii "Invalid hash string")

/-- `Hash::from_hash` (`src/models/hash.rs`, lines 159-172): resolve the
algorithm identifier, then wrap the given bytes with an empty salt. -/
def Hash.from_hash (hash : Bytes) (algo : Bytes) : Except Bytes Hash :=
  if algo = ascii "argon2i" then .ok { hash := hash, salt := [], algorithm := .Argon2i }
  else if algo = ascii "bcrypt" then .ok { hash := hash, salt := [], algorithm := .Bcrypt }
  else if algo = ascii "scrypt" then .ok { hash := hash, salt := [], algorithm := .Scrypt }
  else .error (ascii "Unsupported hash algorithm: " ++ algo)

/-- `Hash::generate_hash` (`src/models/hash.rs`, lines 215-226): dispatch on
the identifier to the provider's `hash_password` (`src/algorithms/`).
`Argon2i::hash_password` always returns `Ok` (it wraps `argon2i_simple`);
`Bcrypt::hash_password` is `bcrypt::hash(password, DEFAULT_COST)` with the
error stringified; `Scrypt::hash_password` builds the constant valid
parameters `Params::new(14, 8, 1, 64)` and fills a 64-byte buffer, which
succeeds (see `ExternalPrimitives`). -/
def Hash.generate_hash (ext : ExternalPrimitives) (password salt algo : Bytes) :
    Except Bytes Bytes :=
  if algo = ascii "argon2i" then .ok (ext.argon2i password salt)
  else if algo = ascii "bcrypt" then ext.bcryptHash password
  else if algo = ascii "scrypt" then .ok (ext.scrypt password salt)
  else .error (ascii "Unsupported hash algorithm: " ++ algo)

/-- `Hash::new` (`src/models/hash.rs`, lines 279-302): passwords of byte
length below eight are rejected (`password.len()` in Rust counts bytes); then
the hash is computed by `generate_hash`, the identifier is matched once more
to the tag (the final error arm is unreachable, `generate_hash` having already
rejected unknown identifiers), and the entity stores the salt's bytes. -/
def Hash.new (ext : ExternalPrimitives) (password salt algo : Bytes) : Except Bytes Hash :=
  if password.length < 8 then
    .error (ascii "Password is too short. It must be at least 8 characters.")
  else
    match Hash.generate_hash ext password salt algo with
    | .error e => .error e
    | .ok hash =>
      if algo = ascii "argon2i" then .ok { hash := hash, salt := salt, algorithm := .Argon2i }
      else if algo = ascii "bcrypt" then .ok { hash := hash, salt := salt, algorithm := .Bcrypt }
      else if algo = ascii "scrypt" then .ok { hash := hash, salt := salt, algorithm := .Scrypt }
      else .error (ascii "Unsupported hash algorithm: " ++ algo)

/-- `Hash::set_password` (`src/models/hash.rs`, lines 341-349): recompute the
hash with `generate_hash` and assign it to the `hash` field; the `?` operator
returns the error before any assignment, so on failure the entity is
unchanged.  The mutation is modelled by returning the method's result together
with the post-state of the entity. -/
def Hash.set_password (ext : ExternalPrimitives) (h : Hash) (password salt algo : Bytes) :
    Except Bytes Unit × Hash :=
  match Hash.generate_hash ext password salt algo with
  | .ok v => (.ok (), { h with hash := v })
  | .error e => (.error e, h)

/-- `Hash::set_hash` (`src/models/hash.rs`, lines 336-338): overwrite the
`hash` field with the given bytes. -/
def Hash.set_hash (h : Hash) (hash : Bytes) : Hash :=
  { h with hash := hash }

/-- `Hash::verify` (`src/models/hash.rs`, lines 369-437).  First the stored
salt is decoded as UTF-8 (for every algorithm), failing with
`"Failed to convert salt to string"`; then the algorithm is matched:
Argon2i recomputes `argon2i_simple(password, salt)` and compares with the
stored hash; Bcrypt decodes the stored hash as UTF-8 (failing with
`"Failed to convert hash to string"`) and delegates to `bcrypt::verify`,
mapping provider errors to `"Failed to verify Bcrypt password"`; Scrypt
recomputes with the constant parameters `Params::new(14, 8, 1, 64)` (whose
construction succeeds, see `ExternalPrimitives`) and compares.  In the model a
decoded `&str` is the same byte sequence. -/
def Hash.verify (ext : ExternalPrimitives) (h : Hash) (password : Bytes) :
    Except Bytes Bool :=
  if validUtf8 h.salt then
    match h.algorithm with
    | .Argon2i => .ok (decide (ext.argon2i password h.salt = h.hash))
    | .Bcrypt =>
      if validUtf8 h.hash then
        match ext.bcryptVerify password h.hash with
        | .ok b => .ok b
        | .error _ => .error (ascii "Failed to verify Bcrypt password")
      else .error (ascii "Failed to convert hash to string")
    | .Scrypt => .ok (decide (ext.scrypt password h.salt = h.hash))
  else .error (ascii "Failed to convert salt to string")

/-- Modelled from the spec: the repository's `src/` defines no extended
serializer (only the colon-form `to_string_representation`); the spec's
round-trip contract (§4.4) describes "the extended serializer (algorithm +
salt/param segments + base64 hash)", i.e. the stored salt bytes (which already
hold `"$algorithm$p2$p3$p4"`) rendered as text, then `'$'`, then the standard
base64 encoding of the hash bytes. -/
def Hash.to_string_extended (h : Hash) : Bytes :=
  h.salt ++ 36 :: b64Encode h.hash

/-- A concrete instantiation of the external primitives, used to evaluate the
model on closed inputs: hashing is modelled by concatenating password and
salt (deterministic and, for a fixed salt, injective in the password), the
bcrypt encoded form is the password itself, and bcrypt verification compares
the candidate against the stored encoded form. -/
def toyExt : ExternalPrimitives where
  argon2i := fun p s => p ++ s
  bcryptHash := fun p => .ok p
  bcryptVerify := fun q h => .ok (decide (q = h))
  scrypt := fun p s => p ++ s

/-- A second concrete instantiation whose outputs have the documented provider
output shapes (32 bytes for Argon2i, 64 for Scrypt, a non-empty encoded
string for Bcrypt). -/
def lenExt : ExternalPrimitives where
  argon2i := fun _ _ => List.replicate 32 0
  bcryptHash := fun _ => .ok (ascii "x")
  bcryptVerify := fun _ _ => .ok true
  scrypt := fun _ _ => List.replicate 64 0

deriving instance DecidableEq for Except

theorem splitDollar_ne_nil (s : Bytes) : splitDollar s ≠ [] := by
  induction s with
  | nil => simp [splitDollar]
  | cons b rest ih =>
    by_cases hb : b = 36
    · simp [splitDollar, hb]
    · simp only [splitDollar, if_neg hb]
      rcases h : splitDollar rest with _ | ⟨p, ps⟩
      · exact absurd h ih
      · simp

theorem joinDollar_cons_cons (b : Nat) (p : Bytes) (ps : List Bytes) :
    joinDollar ((b :: p) :: ps) = b :: joinDollar (p :: ps) := by
  cases ps <;> simp [joinDollar]

/-- Joining the parts of a split with `'$'` recovers the original string. -/
theorem joinDollar_splitDollar (s : Bytes) : joinDollar (splitDollar s) = s := by
  induction s with
  | nil => rfl
  | cons b rest ih =>
    by_cases hb : b = 36
    · subst hb
      simp only [splitDollar, if_pos rfl]
      rcases h : splitDollar rest with _ | ⟨q, ps⟩
      · exact absurd h (splitDollar_ne_nil rest)
      · rw [h] at ih
        simpa [joinDollar] using ih
    · simp only [splitDollar, if_neg hb]
      rcases h : splitDollar rest with _ | ⟨p, ps⟩
      · exact absurd h (splitDollar_ne_nil rest)
      · rw [h] at ih
        rw [joinDollar_cons_cons, ih]

theorem b64Char_of_index {b i : Nat} (h : b64Index b = some i) :
    b64Char i = b ∧ i < 64 := by
  unfold b64Index at h
  split_ifs at h with h1 h2 h3 h4 h5 <;>
    simp only [Option.some.injEq, reduceCtorEq] at h <;>
    subst h <;>
    exact ⟨by simp only [b64Char]; split_ifs <;> omega, by omega⟩

theorem b64Encode_of_b64Decode_aux :
    ∀ (n : Nat) (x bs : Bytes), x.length ≤ n → b64Decode x = some bs → b64Encode bs = x := by
  intro n
  induction n with
  | zero =>
    intro x bs hlen hdec
    rcases x with _ | ⟨c1, x⟩
    · simp only [b64Decode, Option.some.injEq] at hdec
      subst hdec; rfl
    · simp at hlen
  | succ n ih =>
    intro x bs hlen hdec
    rcases x with _ | ⟨c1, x⟩
    · simp only [b64Decode, Option.some.injEq] at hdec
      subst hdec; rfl
    rcases x with _ | ⟨c2, x⟩
    · simp [b64Decode] at hdec
    rcases x with _ | ⟨c3, x⟩
    · simp [b64Decode] at hdec
    rcases x with _ | ⟨c4, rest⟩
    · simp [b64Decode] at hdec
    simp only [b64Decode] at hdec
    rcases h1 : b64Index c1 with _ | i1 <;> rw [h1] at hdec
    · simp at hdec
    rcases h2 : b64Index c2 with _ | i2 <;> rw [h2] at hdec
    · simp at hdec
    obtain ⟨hc1, hi1⟩ := b64Char_of_index h1
    obtain ⟨hc2, hi2⟩ := b64Char_of_index h2
    simp only at hdec
    by_cases h3 : c3 = 61
    · rw [if_pos h3] at hdec
      subst h3
      split_ifs at hdec with hp hz
      · obtain ⟨h4, hrest⟩ := hp
        subst h4; subst hrest
        simp only [Option.some.injEq] at hdec
        subst hdec
        show [b64Char ((i1 * 4 + i2 / 16) / 4), b64Char ((i1 * 4 + i2 / 16) % 4 * 16), 61, 61] =
          [c1, c2, 61, 61]
        rw [show (i1 * 4 + i2 / 16) / 4 = i1 by omega,
          show (i1 * 4 + i2 / 16) % 4 * 16 = i2 by omega, hc1, hc2]
    · rw [if_neg h3] at hdec
      rcases h3i : b64Index c3 with _ | i3 <;> rw [h3i] at hdec
      · simp at hdec
      obtain ⟨hc3, hi3⟩ := b64Char_of_index h3i
      simp only at hdec
      by_cases h4 : c4 = 61
      · rw [if_pos h4] at hdec
        subst h4
        split_ifs at hdec with hrest hz
        subst hrest
        simp only [Option.some.injEq] at hdec
        subst hdec
        show [b64Char ((i1 * 4 + i2 / 16) / 4),
          b64Char ((i1 * 4 + i2 / 16) % 4 * 16 + (i2 % 16 * 16 + i3 / 4) / 16),
          b64Char ((i2 % 16 * 16 + i3 / 4) % 16 * 4), 61] = [c1, c2, c3, 61]
        rw [show (i1 * 4 + i2 / 16) / 4 = i1 by omega,
          show (i1 * 4 + i2 / 16) % 4 * 16 + (i2 % 16 * 16 + i3 / 4) / 16 = i2 by omega,
          show (i2 % 16 * 16 + i3 / 4) % 16 * 4 = i3 by omega, hc1, hc2, hc3]
      · rw [if_neg h4] at hdec
        rcases h4i : b64Index c4 with _ | i4 <;> rw [h4i] at hdec
        · simp at hdec
        obtain ⟨hc4, hi4⟩ := b64Char_of_index h4i
        rcases hr : b64Decode rest with _ | bs' <;> rw [hr] at hdec
        · simp at hdec
        simp only [Option.map_some', Option.some.injEq] at hdec
        subst hdec
        have hrec : b64Encode bs' = rest := by
          refine ih rest bs' (by simp at hlen; omega) hr
        show b64Char ((i1 * 4 + i2 / 16) / 4) ::
          b64Char ((i1 * 4 + i2 / 16) % 4 * 16 + (i2 % 16 * 16 + i3 / 4) / 16) ::
          b64Char ((i2 % 16 * 16 + i3 / 4) % 16 * 4 + (i3 % 4 * 64 + i4) / 64) ::
          b64Char ((i3 % 4 * 64 + i4) % 64) :: b64Encode bs' = c1 :: c2 :: c3 :: c4 :: rest
        rw [show (i1 * 4 + i2 / 16) / 4 = i1 by omega,
          show (i1 * 4 + i2 / 16) % 4 * 16 + (i2 % 16 * 16 + i3 / 4) / 16 = i2 by omega,
          show (i2 % 16 * 16 + i3 / 4) % 16 * 4 + (i3 % 4 * 64 + i4) / 64 = i3 by omega,
          show (i3 % 4 * 64 + i4) % 64 = i4 by omega, hc1, hc2, hc3, hc4, hrec]

/-- A byte sequence accepted by the strict standard base64 decoder is the
canonical encoding of its decoding. -/
theorem b64Encode_of_b64Decode {x bs : Bytes} (h : b64Decode x = some bs) :
    b64Encode bs = x :=
  b64Encode_of_b64Decode_aux x.length x bs le_rfl h

/-- Characterization of a successful `Hash::new`: the password is at least
eight bytes long, and the entity is built from the matching provider's output
with the given salt and the matching tag. -/
theorem Hash.new_ok {ext : ExternalPrimitives} {p s a : Bytes} {h : Hash}
    (hnew : Hash.new ext p s a = .ok h) :
    8 ≤ p.length ∧
    ((a = ascii "argon2i" ∧ h = ⟨ext.argon2i p s, s, .Argon2i⟩) ∨
     (a = ascii "bcrypt" ∧ ∃ v, ext.bcryptHash p = .ok v ∧ h = ⟨v, s, .Bcrypt⟩) ∨
     (a = ascii "scrypt" ∧ h = ⟨ext.scrypt p s, s, .Scrypt⟩)) := by
  by_cases hlen : p.length < 8
  · rw [Hash.new, if_pos hlen] at hnew
    cases hnew
  refine ⟨by omega, ?_⟩
  by_cases h1 : a = ascii "argon2i"
  · subst h1
    simp only [Hash.new, Hash.generate_hash, if_neg hlen, if_pos rfl] at hnew
    exact Or.inl ⟨rfl, by cases hnew; rfl⟩
  by_cases h2 : a = ascii "bcrypt"
  · subst h2
    simp only [Hash.new, Hash.generate_hash, if_neg hlen, if_pos rfl,
      if_neg (by decide : ¬ascii "bcrypt" = ascii "argon2i")] at hnew
    rcases hb : ext.bcryptHash p with e | v <;> rw [hb] at hnew
    · cases hnew
    · exact Or.inr (Or.inl ⟨rfl, v, rfl, by cases hnew; rfl⟩)
  by_cases h3 : a = ascii "scrypt"
  · subst h3
    simp only [Hash.new, Hash.generate_hash, if_neg hlen, if_pos rfl,
      if_neg (by decide : ¬ascii "scrypt" = ascii "argon2i"),
      if_neg (by decide : ¬ascii "scrypt" = ascii "bcrypt")] at hnew
    exact Or.inr (Or.inr ⟨rfl, by cases hnew; rfl⟩)
  · simp only [Hash.new, Hash.generate_hash, if_neg hlen, if_neg h1, if_neg h2,
      if_neg h3] at hnew
    cases hnew

/-- C1, counterexample: the string `"$unsupported$x$x$x$x$x"` splits into
seven `'$'`-separated segments, so `Hash::from_string` fails with the
wrong-segment-count error `"Invalid hash string"`, not with the
invalid-algorithm error carrying `"unsupported"`. -/
theorem claim_C1_counterexample :
    (splitDollar (ascii "$unsupported$x$x$x$x$x")).length = 7 ∧
    Hash.from_string (ascii "$unsupported$x$x$x$x$x") = .error (ascii "Invalid hash string") ∧
    ascii "Invalid hash string" ≠ ascii "Unsupported hash algorithm: unsupported" := by
  refine ⟨rfl, rfl, by decide⟩

/-- C1 (amended): a string with exactly six `'$'`-separated segments whose
second segment is `"unsupported"`, such as `"$unsupported$x$x$x$x"`, fails
with the invalid-algorithm error carrying the token `"unsupported"`; parsing
`"no-dollar-signs"` fails with the invalid-hash-string (wrong segment count)
error. -/
theorem claim_C1 :
    Hash.from_string (ascii "$unsupported$x$x$x$x") =
      .error (ascii "Unsupported hash algorithm: " ++ ascii "unsupported") ∧
    Hash.from_string (ascii "no-dollar-signs") = .error (ascii "Invalid hash string") := by
  refine ⟨rfl, rfl⟩

/-- C2, counterexample: `Hash::from_hash` with an empty byte slice succeeds
and yields an entity whose `hash` field is the empty byte vector, so not every
successfully constructed entity has a non-empty hash. -/
theorem claim_C2_counterexample :
    Hash.from_hash [] (ascii "argon2i") = .ok { hash := [], salt := [], algorithm := .Argon2i } ∧
    (Hash.mk [] [] .Argon2i).hash = [] :=
  ⟨rfl, rfl⟩

/-- C2 (amended): for every entity obtained from a successful `Hash::new`
whose providers return non-empty outputs (as the real ones do: 32 bytes for
Argon2i, 64 for Scrypt, a non-empty encoded string for Bcrypt), the `hash`
field is non-empty; the other construction paths (`from_hash`, `from_string`,
`HashBuilder::build`) copy the given or decoded bytes without an emptiness
check. -/
theorem claim_C2 (ext : ExternalPrimitives) (p s a : Bytes) (h : Hash)
    (hA : ∀ q t, ext.argon2i q t ≠ [])
    (hB : ∀ q v, ext.bcryptHash q = .ok v → v ≠ [])
    (hS : ∀ q t, ext.scrypt q t ≠ [])
    (hnew : Hash.new ext p s a = .ok h) : h.hash ≠ [] := by
  rcases (Hash.new_ok hnew).2 with ⟨_, rfl⟩ | ⟨_, v, hv, rfl⟩ | ⟨_, rfl⟩
  · exact hA p s
  · exact hB p v hv
  · exact hS p s

/-- C2, witness: instantiating the amended theorem at the 32-byte-output
providers and a concrete password and salt. -/
theorem claim_C2_witness :
    (Hash.mk (List.replicate 32 0) (ascii "somesalt") .Argon2i).hash ≠ [] :=
  claim_C2 lenExt (ascii "password") (ascii "somesalt") (ascii "argon2i")
    (Hash.mk (List.replicate 32 0) (ascii "somesalt") .Argon2i)
    (fun _ _ => by simp [lenExt])
    (fun _ v hv => by simp only [lenExt] at hv; cases hv; decide)
    (fun _ _ => by simp [lenExt])
    rfl

/-- C3, counterexample: `"x$argon2i$a$b$c$AAEC"` has exactly six
`'$'`-separated segments, its second segment is a known identifier and its
sixth is valid base64, so `from_string` succeeds — but the extended
re-serialization drops the non-empty first segment `"x"` and does not
reproduce the input string. -/
theorem claim_C3_counterexample :
    (splitDollar (ascii "x$argon2i$a$b$c$AAEC")).length = 6 ∧
    (splitDollar (ascii "x$argon2i$a$b$c$AAEC")).getD 1 [] = ascii "argon2i" ∧
    b64Decode (ascii "AAEC") = some [0, 1, 2] ∧
    Hash.from_string (ascii "x$argon2i$a$b$c$AAEC") =
      .ok { hash := [0, 1, 2], salt := ascii "$argon2i$a$b$c", algorithm := .Argon2i } ∧
    Hash.to_string_extended
      { hash := [0, 1, 2], salt := ascii "$argon2i$a$b$c", algorithm := .Argon2i } =
      ascii "$argon2i$a$b$c$AAEC" ∧
    ascii "$argon2i$a$b$c$AAEC" ≠ ascii "x$argon2i$a$b$c$AAEC" :=
  ⟨rfl, rfl, rfl, rfl, rfl, by decide⟩

/-- C3 (amended): for every string of exactly six `'$'`-separated segments
whose FIRST segment is empty, whose second segment is one of the three known
algorithm identifiers, and whose sixth segment is valid (hence canonical)
base64, `Hash::from_string` succeeds; re-serializing the resulting entity in
the extended form reproduces the string, and parsing the re-serialization
yields the same entity (same algorithm, hash bytes, and salt segment). -/
theorem claim_C3 (s alg p2 p3 p4 b6 bs : Bytes)
    (hsplit : splitDollar s = [[], alg, p2, p3, p4, b6])
    (halg : alg = ascii "argon2i" ∨ alg = ascii "bcrypt" ∨ alg = ascii "scrypt")
    (hdec : b64Decode b6 = some bs) :
    ∃ h : Hash,
      Hash.from_string s = .ok h ∧
      h.hash = bs ∧
      h.salt = [36] ++ alg ++ [36] ++ p2 ++ [36] ++ p3 ++ [36] ++ p4 ∧
      Hash.to_string_extended h = s ∧
      Hash.from_string (Hash.to_string_extended h) = .ok h := by
  obtain ⟨A, hA⟩ : ∃ A, Hash.parse_algorithm s = .ok A := by
    rcases halg with h | h | h <;> subst h
    · exact ⟨.Argon2i, by unfold Hash.parse_algorithm; rw [hsplit]; rfl⟩
    · exact ⟨.Bcrypt, by unfold Hash.parse_algorithm; rw [hsplit]; rfl⟩
    · exact ⟨.Scrypt, by unfold Hash.parse_algorithm; rw [hsplit]; rfl⟩
  have hfs : Hash.from_string s =
      .ok ⟨bs, [36] ++ alg ++ [36] ++ p2 ++ [36] ++ p3 ++ [36] ++ p4, A⟩ := by
    simp [Hash.from_string, hsplit, hA, hdec, List.getD]
  have henc : b64Encode bs = b6 := b64Encode_of_b64Decode hdec
  have hser : Hash.to_string_extended
      ⟨bs, [36] ++ alg ++ [36] ++ p2 ++ [36] ++ p3 ++ [36] ++ p4, A⟩ = s := by
    have hjoin : s = joinDollar [[], alg, p2, p3, p4, b6] := by
      rw [← joinDollar_splitDollar s, hsplit]
    rw [hjoin]
    simp [Hash.to_string_extended, henc, joinDollar, List.append_assoc]
  refine ⟨⟨bs, [36] ++ alg ++ [36] ++ p2 ++ [36] ++ p3 ++ [36] ++ p4, A⟩,
    hfs, rfl, rfl, hser, ?_⟩
  rw [hser, hfs]

/-- C3, witness: the amended theorem applied to the concrete string
`"$argon2i$a$b$c$AAEC"` (whose sixth segment decodes to the bytes 0, 1, 2). -/
theorem claim_C3_witness :
    Hash.from_string (ascii "$argon2i$a$b$c$AAEC") =
      .ok { hash := [0, 1, 2], salt := ascii "$argon2i$a$b$c", algorithm := .Argon2i } ∧
    Hash.to_string_extended
      { hash := [0, 1, 2], salt := ascii "$argon2i$a$b$c", algorithm := .Argon2i } =
      ascii "$argon2i$a$b$c$AAEC" := by
  obtain ⟨h, h1, _, _, h4, _⟩ := claim_C3 (ascii "$argon2i$a$b$c$AAEC") (ascii "argon2i")
    (ascii "a") (ascii "b") (ascii "c") (ascii "AAEC") [0, 1, 2] rfl (Or.inl rfl) rfl
  have h1c : Hash.from_string (ascii "$argon2i$a$b$c$AAEC") =
      .ok { hash := [0, 1, 2], salt := ascii "$argon2i$a$b$c", algorithm := .Argon2i } := rfl
  rw [h1] at h1c
  have he := Except.ok.inj h1c
  rw [he] at h1 h4
  exact ⟨h1, h4⟩

/-- C4: for every entity successfully built by `Hash::new`, verification with
the original password returns `Ok(true)` and verification with any other
password returns `Ok(false)` — never an error.  The hypotheses state the
spec's assumptions on the external providers (§4.1, §8): password
sensitivity for Argon2i and Scrypt at the relevant inputs, and, for Bcrypt,
that the encoded output is valid UTF-8 and that the provider's own
verification accepts exactly the hashed password. -/
theorem claim_C4 (ext : ExternalPrimitives) (p p' s : Bytes)
    (hvalid : validUtf8 s = true)
    (hne : p' ≠ p)
    (hA : ext.argon2i p' s ≠ ext.argon2i p s)
    (hS : ext.scrypt p' s ≠ ext.scrypt p s)
    (hB : ∀ v, ext.bcryptHash p = .ok v →
      validUtf8 v = true ∧ ∀ q, ext.bcryptVerify q v = .ok (decide (q = p))) :
    ∀ (a : Bytes) (h : Hash), Hash.new ext p s a = .ok h →
      Hash.verify ext h p = .ok true ∧ Hash.verify ext h p' = .ok false := by
  intro a h hnew
  rcases (Hash.new_ok hnew).2 with ⟨_, rfl⟩ | ⟨_, v, hv, rfl⟩ | ⟨_, rfl⟩
  · exact ⟨by simp [Hash.verify, hvalid], by simp [Hash.verify, hvalid, hA]⟩
  · obtain ⟨hvv, hbv⟩ := hB v hv
    exact ⟨by simp [Hash.verify, hvalid, hvv, hbv p],
      by simp [Hash.verify, hvalid, hvv, hbv p', hne]⟩
  · exact ⟨by simp [Hash.verify, hvalid], by simp [Hash.verify, hvalid, hS]⟩

/-- C4, witness: the round trip evaluated with the concrete providers on the
password `"password"`, wrong candidate `"wrongpass"`, salt `"somesalt"` and
the Argon2i identifier. -/
theorem claim_C4_witness :
    Hash.verify toyExt
      { hash := ascii "password" ++ ascii "somesalt", salt := ascii "somesalt",
        algorithm := .Argon2i } (ascii "password") = .ok true ∧
    Hash.verify toyExt
      { hash := ascii "password" ++ ascii "somesalt", salt := ascii "somesalt",
        algorithm := .Argon2i } (ascii "wrongpass") = .ok false :=
  claim_C4 toyExt (ascii "password") (ascii "wrongpass") (ascii "somesalt")
    rfl (by decide) (by decide) (by decide)
    (fun v hv => by
      simp only [toyExt] at hv
      cases hv
      exact ⟨rfl, fun q => rfl⟩)
    (ascii "argon2i") _ rfl

/-- C5, counterexample: `Hash::new` measures the password in bytes
(`password.len()`), not characters: the five-character password
`"ééééé"` (ten UTF-8 bytes) is accepted, so not every password shorter than
eight characters is rejected. -/
theorem claim_C5_counterexample :
    charCount [195, 169, 195, 169, 195, 169, 195, 169, 195, 169] = 5 ∧
    validUtf8 [195, 169, 195, 169, 195, 169, 195, 169, 195, 169] = true ∧
    Hash.new toyExt [195, 169, 195, 169, 195, 169, 195, 169, 195, 169]
      (ascii "somesalt") (ascii "argon2i") =
      .ok { hash := [195, 169, 195, 169, 195, 169, 195, 169, 195, 169] ++ ascii "somesalt",
            salt := ascii "somesalt", algorithm := .Argon2i } :=
  ⟨rfl, rfl, rfl⟩

/-- C5 (amended): for every password whose UTF-8 byte length is strictly less
than 8, every salt, and every algorithm identifier, `Hash::new` fails with the
password-too-short error; the result is the same for every choice of
providers, i.e. no provider is invoked. -/
theorem claim_C5 (ext ext' : ExternalPrimitives) (p s a : Bytes)
    (hlen : p.length < 8) :
    Hash.new ext p s a =
      .error (ascii "Password is too short. It must be at least 8 characters.") ∧
    Hash.new ext p s a = Hash.new ext' p s a := by
  constructor <;> simp [Hash.new, if_pos hlen]

/-- C5, witness: the amended theorem at the five-byte password `"short"`. -/
theorem claim_C5_witness :
    Hash.new toyExt (ascii "short") (ascii "somesalt") (ascii "argon2i") =
      .error (ascii "Password is too short. It must be at least 8 characters.") :=
  (claim_C5 toyExt lenExt (ascii "short") (ascii "somesalt") (ascii "argon2i")
    (by decide)).1

/-- C6, counterexample: two Bcrypt entities that agree on the hash but differ
in the salt can verify differently, because `verify` decodes the stored salt
as UTF-8 before branching on the algorithm: with an invalid-UTF-8 salt it
errors, with a valid one it does not. -/
theorem claim_C6_counterexample :
    (Hash.mk (ascii "hh") [] .Bcrypt).hash = (Hash.mk (ascii "hh") [255] .Bcrypt).hash ∧
    (Hash.mk (ascii "hh") [] .Bcrypt).salt ≠ (Hash.mk (ascii "hh") [255] .Bcrypt).salt ∧
    Hash.verify toyExt (Hash.mk (ascii "hh") [] .Bcrypt) (ascii "pw") = .ok false ∧
    Hash.verify toyExt (Hash.mk (ascii "hh") [255] .Bcrypt) (ascii "pw") =
      .error (ascii "Failed to convert salt to string") ∧
    (.ok false : Except Bytes Bool) ≠ .error (ascii "Failed to convert salt to string") :=
  ⟨rfl, by decide, rfl, rfl, by decide⟩

/-- C6 (amended): for every pair of Bcrypt entities that agree on the hash
field and whose salt fields are both valid UTF-8, `verify` with the same
candidate password returns the same result — beyond the initial UTF-8 decode,
the salt field is not read during Bcrypt verification. -/
theorem claim_C6 (ext : ExternalPrimitives) (h1 h2 : Hash) (p : Bytes)
    (halg1 : h1.algorithm = .Bcrypt) (halg2 : h2.algorithm = .Bcrypt)
    (hhash : h1.hash = h2.hash)
    (hs1 : validUtf8 h1.salt = true) (hs2 : validUtf8 h2.salt = true) :
    Hash.verify ext h1 p = Hash.verify ext h2 p := by
  simp [Hash.verify, hs1, hs2, halg1, halg2, hhash]

/-- C6, witness: two concrete Bcrypt entities with the same hash and distinct
valid-UTF-8 salts verify identically. -/
theorem claim_C6_witness :
    Hash.verify toyExt (Hash.mk (ascii "hh") [] .Bcrypt) (ascii "pw") =
    Hash.verify toyExt (Hash.mk (ascii "hh") (ascii "zz") .Bcrypt) (ascii "pw") :=
  claim_C6 toyExt (Hash.mk (ascii "hh") [] .Bcrypt)
    (Hash.mk (ascii "hh") (ascii "zz") .Bcrypt) (ascii "pw") rfl rfl rfl rfl rfl

/-- C7, counterexample: `HashAlgorithm::from_str` rejects `"md5"` with the
fixed message `"Invalid hash algorithm"`, which does not mention the
identifier — so not all four resolution paths fail with an error naming the
identifier. -/
theorem claim_C7_counterexample :
    HashAlgorithm.from_str (ascii "md5") = .error (ascii "Invalid hash algorithm") ∧
    mentions (ascii "md5") (ascii "Invalid hash algorithm") = false :=
  ⟨rfl, rfl⟩

/-- C7 (amended): resolution is an exact, case-sensitive match in all four
places — each known identifier maps to its variant, and every other
identifier is rejected; `new`, `generate_hash` and `from_hash` fail with
`"Unsupported hash algorithm: {identifier}"` naming the identifier, while
`HashAlgorithm::from_str` fails with the fixed message
`"Invalid hash algorithm"` that does not name it. -/
theorem claim_C7 (ext : ExternalPrimitives) (hb p sl a : Bytes)
    (h1 : a ≠ ascii "argon2i") (h2 : a ≠ ascii "bcrypt") (h3 : a ≠ ascii "scrypt")
    (hlen : 8 ≤ p.length) :
    (HashAlgorithm.from_str (ascii "argon2i") = .ok .Argon2i ∧
     HashAlgorithm.from_str (ascii "bcrypt") = .ok .Bcrypt ∧
     HashAlgorithm.from_str (ascii "scrypt") = .ok .Scrypt) ∧
    (Hash.from_hash hb (ascii "argon2i") = .ok ⟨hb, [], .Argon2i⟩ ∧
     Hash.from_hash hb (ascii "bcrypt") = .ok ⟨hb, [], .Bcrypt⟩ ∧
     Hash.from_hash hb (ascii "scrypt") = .ok ⟨hb, [], .Scrypt⟩) ∧
    (Hash.generate_hash ext p sl (ascii "argon2i") = .ok (ext.argon2i p sl) ∧
     Hash.generate_hash ext p sl (ascii "bcrypt") = ext.bcryptHash p ∧
     Hash.generate_hash ext p sl (ascii "scrypt") = .ok (ext.scrypt p sl)) ∧
    (∀ h, Hash.new ext p sl (ascii "argon2i") = .ok h → h.algorithm = .Argon2i) ∧
    (∀ h, Hash.new ext p sl (ascii "bcrypt") = .ok h → h.algorithm = .Bcrypt) ∧
    (∀ h, Hash.new ext p sl (ascii "scrypt") = .ok h → h.algorithm = .Scrypt) ∧
    (Hash.from_hash hb a = .error (ascii "Unsupported hash algorithm: " ++ a) ∧
     Hash.generate_hash ext p sl a = .error (ascii "Unsupported hash algorithm: " ++ a) ∧
     Hash.new ext p sl a = .error (ascii "Unsupported hash algorithm: " ++ a) ∧
     HashAlgorithm.from_str a = .error (ascii "Invalid hash algorithm")) := by
  have hnl : ¬ p.length < 8 := by omega
  refine ⟨⟨rfl, rfl, rfl⟩, ⟨rfl, rfl, rfl⟩, ⟨rfl, rfl, rfl⟩, ?_, ?_, ?_,
    ?_, ?_, ?_, ?_⟩
  · intro h hnew
    rcases (Hash.new_ok hnew).2 with ⟨_, rfl⟩ | ⟨habs, _⟩ | ⟨habs, _⟩
    · rfl
    · exact absurd habs (by decide)
    · exact absurd habs (by decide)
  · intro h hnew
    rcases (Hash.new_ok hnew).2 with ⟨habs, _⟩ | ⟨_, v, _, rfl⟩ | ⟨habs, _⟩
    · exact absurd habs (by decide)
    · rfl
    · exact absurd habs (by decide)
  · intro h hnew
    rcases (Hash.new_ok hnew).2 with ⟨habs, _⟩ | ⟨habs, _⟩ | ⟨_, rfl⟩
    · exact absurd habs (by decide)
    · exact absurd habs (by decide)
    · rfl
  · simp [Hash.from_hash, h1, h2, h3]
  · simp [Hash.generate_hash, h1, h2, h3]
  · simp [Hash.new, Hash.generate_hash, hnl, h1, h2, h3]
  · simp [HashAlgorithm.from_str, h1, h2, h3]

/-- C7, witness: the amended theorem at the unknown identifier `"md5"` and
concrete arguments. -/
theorem claim_C7_witness :
    HashAlgorithm.from_str (ascii "argon2i") = .ok .Argon2i ∧
    Hash.from_hash [1, 2, 3] (ascii "md5") =
      .error (ascii "Unsupported hash algorithm: " ++ ascii "md5") ∧
    HashAlgorithm.from_str (ascii "md5") = .error (ascii "Invalid hash algorithm") := by
  obtain ⟨⟨f1, _, _⟩, _, _, _, _, _, ⟨e1, _, _, e4⟩⟩ :=
    claim_C7 toyExt [1, 2, 3] (ascii "password") (ascii "ss") (ascii "md5")
      (by decide) (by decide) (by decide) (by decide)
  exact ⟨f1, e1, e4⟩

/-- C8: `set_password` mutates only the `hash` field — the salt and algorithm
of the post-state always equal those of the pre-state, and when the result is
an error the post-state is the unchanged pre-state. -/
theorem claim_C8 (ext : ExternalPrimitives) (h : Hash) (p s a : Bytes) :
    (Hash.set_password ext h p s a).2.salt = h.salt ∧
    (Hash.set_password ext h p s a).2.algorithm = h.algorithm ∧
    (∀ e, (Hash.set_password ext h p s a).1 = .error e →
      (Hash.set_password ext h p s a).2 = h) := by
  rcases hg : Hash.generate_hash ext p s a with e | v <;>
    simp [Hash.set_password, hg]

/-- C8, witness: at an unknown identifier the entity is returned unchanged,
and at a known identifier the salt is preserved. -/
theorem claim_C8_witness :
    (Hash.set_password toyExt (Hash.mk (ascii "old") (ascii "aa") .Argon2i)
      (ascii "pw") (ascii "bb") (ascii "md5")).2 =
      Hash.mk (ascii "old") (ascii "aa") .Argon2i ∧
    (Hash.set_password toyExt (Hash.mk (ascii "old") (ascii "aa") .Argon2i)
      (ascii "pw") (ascii "bb") (ascii "argon2i")).2.salt = ascii "aa" :=
  ⟨(claim_C8 toyExt (Hash.mk (ascii "old") (ascii "aa") .Argon2i)
      (ascii "pw") (ascii "bb") (ascii "md5")).2.2
      (ascii "Unsupported hash algorithm: " ++ ascii "md5") rfl,
   (claim_C8 toyExt (Hash.mk (ascii "old") (ascii "aa") .Argon2i)
      (ascii "pw") (ascii "bb") (ascii "argon2i")).1⟩

/-- C9: `set_password` enforces no minimum password length: for every
password shorter than 8 characters (including the empty string), it succeeds
and stores the recomputed hash whenever the provider dispatch succeeds, and
it fails exactly with the dispatch's error otherwise (unknown identifier or
provider failure). -/
theorem claim_C9 (ext : ExternalPrimitives) (h : Hash) (p s a : Bytes)
    (_hshort : charCount p < 8) :
    (∀ v, Hash.generate_hash ext p s a = .ok v →
      Hash.set_password ext h p s a = (.ok (), { h with hash := v })) ∧
    (∀ e, Hash.generate_hash ext p s a = .error e →
      Hash.set_password ext h p s a = (.error e, h)) := by
  constructor <;> intro x hx <;> simp [Hash.set_password, hx]

/-- C9, witness: the empty password is accepted by `set_password` with the
Argon2i identifier, and the recomputed hash is stored. -/
theorem claim_C9_witness :
    Hash.set_password toyExt (Hash.mk (ascii "old") (ascii "aa") .Argon2i)
      [] (ascii "bb") (ascii "argon2i") =
      (.ok (), Hash.mk ([] ++ ascii "bb") (ascii "aa") .Argon2i) :=
  (claim_C9 toyExt (Hash.mk (ascii "old") (ascii "aa") .Argon2i)
    [] (ascii "bb") (ascii "argon2i") (by decide)).1 ([] ++ ascii "bb") rfl

/-- C10: for every Bcrypt entity whose stored hash bytes are not valid UTF-8,
`verify` returns an error for every candidate password, never `Ok(false)`;
when the salt is valid UTF-8 (as it is for entities built by `from_hash`,
whose salt is empty) the error is `"Failed to convert hash to string"`. -/
theorem claim_C10 (ext : ExternalPrimitives) (h : Hash) (p : Bytes)
    (halg : h.algorithm = .Bcrypt) (hbad : validUtf8 h.hash = false) :
    (∃ e, Hash.verify ext h p = .error e) ∧
    (validUtf8 h.salt = true →
      Hash.verify ext h p = .error (ascii "Failed to convert hash to string")) := by
  constructor
  · cases hs : validUtf8 h.salt
    · exact ⟨ascii "Failed to convert salt to string", by simp [Hash.verify, hs]⟩
    · exact ⟨ascii "Failed to convert hash to string",
        by simp [Hash.verify, hs, halg, hbad]⟩
  · intro hs
    simp [Hash.verify, hs, halg, hbad]

/-- C10, witness: the entity produced by `from_hash([255], "bcrypt")` (byte
255 is not valid UTF-8) makes `verify` fail with the hash-conversion error. -/
theorem claim_C10_witness :
    Hash.verify toyExt (Hash.mk [255] [] .Bcrypt) (ascii "pw") =
      .error (ascii "Failed to convert hash to string") :=
  (claim_C10 toyExt (Hash.mk [255] [] .Bcrypt) (ascii "pw") rfl rfl).2 rfl

end Hsh

